import Mathlib

/-!
Shallow embedding of the visual-commerce-creator storefront client:
the product data model, the shopping-cart store operations, the catalog
view model (fetch + filter) of `src/pages/Index.tsx`, and the
product-detail page logic (fetch outcome handling, quantity selector,
add-to-cart loop).

The cart store implementation (`src/contexts/CartContext.tsx`) is not
part of the provided sources; only its interface declaration and its
callers are. Its operations are therefore modelled from the spec, and
each such definition is marked in its doc comment. Prices are modelled
as exact rationals (the spec fixes two-fraction-digit currency
semantics for `price`).
-/

namespace VCC

/-- Product row, mirroring `src/types/product.ts`: `description`,
`image_url` and `category` are nullable, `price` is a two-fraction-digit
decimal (modelled as a rational), `stock` a non-negative integer. -/
structure Product where
  id : String
  name : String
  description : Option String
  price : ℚ
  image_url : Option String
  category : Option String
  stock : Nat
  created_at : String
  updated_at : String
deriving Repr, DecidableEq

/-- Cart line item, mirroring `CartItem extends Product` of
`src/types/product.ts`: a product snapshot plus a `quantity`. -/
structure CartItem extends Product where
  quantity : Int
deriving Repr, DecidableEq

/-- The line item created for a product on its first add. -/
def newCartItem (p : Product) : CartItem :=
  { toProduct := p, quantity := 1 }

/-- Increment the quantity of a line item when its id matches, leave it
unchanged otherwise. -/
def bumpIfMatch (pid : String) (item : CartItem) : CartItem :=
  if item.id == pid then { item with quantity := item.quantity + 1 } else item

/-- Modelled from the spec: `addToCart(product)` of the cart store
(`src/contexts/CartContext.tsx`, absent from the provided sources). If a
line item with `product.id` exists, increment its `quantity` by 1;
otherwise insert a new line item with `quantity = 1` at the end of the
ordered collection. No stock check. -/
def addToCart (cart : List CartItem) (p : Product) : List CartItem :=
  if cart.any (fun item => item.id == p.id) then cart.map (bumpIfMatch p.id)
  else cart ++ [newCartItem p]

/-- Modelled from the spec: `removeFromCart(productId)` of the cart
store (absent from the provided sources). Removes the line item with
that id, if present; no-op and no error if absent. -/
def removeFromCart (cart : List CartItem) (productId : String) : List CartItem :=
  cart.filter (fun item => item.id != productId)

/-- Modelled from the spec: `updateQuantity(productId, newQuantity)` of
the cart store (absent from the provided sources). If `newQuantity <= 0`
it behaves as `removeFromCart`; otherwise it sets the line item's
`quantity` to `newQuantity`, with no upper bound against `stock`; no-op
if `productId` is absent. -/
def updateQuantity (cart : List CartItem) (productId : String) (newQuantity : Int) :
    List CartItem :=
  if newQuantity ≤ 0 then removeFromCart cart productId
  else
    cart.map (fun item =>
      if item.id == productId then { item with quantity := newQuantity } else item)

/-- Modelled from the spec: `clearCart()` of the cart store (absent from
the provided sources). Empties the collection unconditionally. -/
def clearCart : List CartItem := []

/-- Modelled from the spec: `getCartTotal()` of the cart store (absent
from the provided sources). Sum over all line items of
`price * quantity`, recomputed from the cart value passed in — the
embedding is a pure function of the current state, so no cached total
can go stale. -/
def getCartTotal (cart : List CartItem) : ℚ :=
  cart.foldl (fun total item => total + item.price * (item.quantity : ℚ)) 0

/-- Modelled from the spec: `getCartCount()` of the cart store (absent
from the provided sources). Sum of `quantity` across all line items. -/
def getCartCount (cart : List CartItem) : Int :=
  cart.foldl (fun count item => count + item.quantity) 0

/-- Number of line items in the cart carrying the given product id. -/
def idCount (cart : List CartItem) (productId : String) : Nat :=
  (cart.filter (fun item => item.id == productId)).length

/-- Total quantity carried by line items with the given product id. -/
def idQuantity (cart : List CartItem) (productId : String) : Int :=
  ((cart.filter (fun item => item.id == productId)).map (fun item => item.quantity)).sum

/-- JavaScript `a.toLowerCase()`, modelled as the character-wise lower
casing of the underlying character sequence. -/
def toLowerCase (s : String) : String :=
  String.mk (s.data.map Char.toLower)

/-- JavaScript `a.includes(b)` on strings: `b` occurs as a contiguous
substring of `a`. -/
def strIncludes (s sub : String) : Bool :=
  decide (List.IsInfix sub.toList s.toList)

/-- The search predicate of `filterProducts` in `src/pages/Index.tsx`:
`product.name.toLowerCase().includes(q.toLowerCase()) ||
product.description?.toLowerCase().includes(q.toLowerCase())`. A null
`description` makes the optional chain falsy. -/
def matchesSearch (searchQuery : String) (p : Product) : Bool :=
  strIncludes (toLowerCase p.name) (toLowerCase searchQuery) ||
    (match p.description with
     | some d => strIncludes (toLowerCase d) (toLowerCase searchQuery)
     | none => false)

/-- The category predicate of `filterProducts` in `src/pages/Index.tsx`:
`product.category === selectedCategory`, an exact case-sensitive match
(a null category never equals a string). -/
def matchesCategory (selectedCategory : String) (p : Product) : Bool :=
  p.category == some selectedCategory

/-- `filterProducts` of `src/pages/Index.tsx` as a pure function of its
three reactive inputs: starting from the full list, filter by the search
query when it is non-empty (JavaScript truthiness of a string), then by
the category when it is not the sentinel value `all`. -/
def filterProducts (products : List Product) (searchQuery : String)
    (selectedCategory : String) : List Product :=
  let filtered := products
  let filtered :=
    if searchQuery ≠ "" then filtered.filter (matchesSearch searchQuery) else filtered
  if selectedCategory ≠ "all" then filtered.filter (matchesCategory selectedCategory)
  else filtered

/-- View-model state of `src/pages/Index.tsx`: the product list, the
derived category facets, and the loading flag. -/
structure IndexState where
  products : List Product
  categories : List String
  loading : Bool
deriving Repr, DecidableEq

/-- Outcome of a remote query: `err` is a transport/query failure;
`ok data` carries the rows, which the client may still receive as null
(`data || []` / `maybeSingle` semantics). -/
inductive FetchResult (α : Type) where
  | ok (data : Option α)
  | err
deriving Repr, DecidableEq

/-- First-occurrence deduplication, as performed by the JavaScript
`new Set(...)` iteration order in `src/pages/Index.tsx`. -/
def dedupFirst (seen : List String) : List String → List String
  | [] => []
  | c :: cs => if c ∈ seen then dedupFirst seen cs else c :: dedupFirst (c :: seen) cs

/-- The category-facet derivation of `fetchProducts` in
`src/pages/Index.tsx`: `Array.from(new Set(data.map(p => p.category)
.filter(Boolean)))` — drop null and empty-string categories (both are
falsy), then deduplicate keeping first occurrences. -/
def uniqueCategories (rows : List Product) : List String :=
  dedupFirst []
    ((rows.map (fun p => p.category)).filterMap (fun c =>
      match c with
      | some s => if s = "" then none else some s
      | none => none))

/-- The result-handling step of `fetchProducts` in `src/pages/Index.tsx`:
on error, toast and leave products and categories untouched; on success,
replace the product list with `data || []` and re-derive the facets. The
loading flag is cleared on both paths. -/
def fetchProducts (s : IndexState) : FetchResult (List Product) → IndexState
  | .err => { s with loading := false }
  | .ok data =>
      { products := data.getD [], categories := uniqueCategories (data.getD []),
        loading := false }

/-- Observable outcome of the detail-page fetch in `ProductDetail`: the
resulting `product` state, the cleared loading flag, the toast message
raised (if any), and the route navigated to (if any). -/
structure DetailResult where
  product : Option Product
  loading : Bool
  toastError : Option String
  navigateTo : Option String
deriving Repr, DecidableEq

/-- The result-handling step of `fetchProduct` in `ProductDetail`:
a query failure toasts and keeps the previous state; a row sets the
product; a well-formed lookup with no row (`maybeSingle` returned null)
toasts and navigates back to the root route. -/
def fetchProductOutcome (prev : Option Product) : FetchResult Product → DetailResult
  | .err =>
      { product := prev, loading := false,
        toastError := some "Failed to load product", navigateTo := none }
  | .ok (some row) =>
      { product := some row, loading := false, toastError := none, navigateTo := none }
  | .ok none =>
      { product := prev, loading := false,
        toastError := some "Product not found", navigateTo := some "/" }

/-- Initial value of the detail-page quantity selector: `useState(1)`. -/
def initialQuantity : Nat := 1

/-- `incrementQuantity` of `ProductDetail`: increment only while a
product is loaded and the quantity is strictly below its stock. -/
def incrementQuantity (product : Option Product) (quantity : Nat) : Nat :=
  match product with
  | some p => if quantity < p.stock then quantity + 1 else quantity
  | none => quantity

/-- `decrementQuantity` of `ProductDetail`: decrement only while the
quantity is strictly above 1. -/
def decrementQuantity (quantity : Nat) : Nat :=
  if 1 < quantity then quantity - 1 else quantity

/-- One user interaction with the detail-page quantity control. -/
inductive QtyOp where
  | inc
  | dec
deriving Repr, DecidableEq

/-- Apply one quantity-control interaction. -/
def applyQtyOp (product : Option Product) (quantity : Nat) : QtyOp → Nat
  | .inc => incrementQuantity product quantity
  | .dec => decrementQuantity quantity

/-- Run a sequence of quantity-control interactions left to right. -/
def runQtyOps (product : Option Product) (quantity : Nat) : List QtyOp → Nat
  | [] => quantity
  | op :: ops => runQtyOps product (applyQtyOp product quantity op) ops

/-- The add-to-cart loop of `handleAddToCart` in `ProductDetail`:
`for (let i = 0; i < quantity; i++) addToCart(product)`, applied left to
right. -/
def addNTimes (p : Product) : Nat → List CartItem → List CartItem
  | 0, cart => cart
  | n + 1, cart => addNTimes p n (addToCart cart p)

/-- `handleAddToCart` of `ProductDetail`: a no-op when no product is
loaded, otherwise `quantity` unit calls to the cart store. -/
def handleAddToCart (product : Option Product) (quantity : Nat)
    (cart : List CartItem) : List CartItem :=
  match product with
  | none => cart
  | some p => addNTimes p quantity cart

/-- Convenience constructor for concrete products in examples. -/
def mkProduct (i n : String) (d : Option String) (pr : ℚ) (c : Option String)
    (st : Nat) : Product :=
  { id := i, name := n, description := d, price := pr, image_url := none,
    category := c, stock := st, created_at := "", updated_at := "" }

/-- The Running Shoes sample row of the seed migration. -/
def sampleShoes : Product :=
  mkProduct "p1" "Running Shoes" (some "Lightweight running shoes") (12999 / 100)
    (some "Footwear") 40

/-- The Yoga Mat sample row of the seed migration. -/
def sampleYoga : Product :=
  mkProduct "p2" "Yoga Mat" (some "Eco-friendly non-slip yoga mat") (4999 / 100)
    (some "Sports") 50

/-- Two-product catalog used by the filtering examples of the spec. -/
def sampleCatalog : List Product := [sampleShoes, sampleYoga]

/-- Line item with price 199.99 and quantity 2, from the cart-total
example of the spec. -/
def sampleItemA : CartItem :=
  { toProduct := mkProduct "a" "A" none (19999 / 100) none 30, quantity := 2 }

/-- Line item with price 49.99 and quantity 1, from the cart-total
example of the spec. -/
def sampleItemB : CartItem :=
  { toProduct := mkProduct "b" "B" none (4999 / 100) none 30, quantity := 1 }

/-- Bumping a line item never changes its product id. -/
theorem bumpIfMatch_id (pid : String) (item : CartItem) :
    (bumpIfMatch pid item).id = item.id := by
  unfold bumpIfMatch
  split <;> rfl

/-- Unfolding lemma: counting line items with a given id over a cons. -/
theorem idCount_cons (i : CartItem) (c : List CartItem) (x : String) :
    idCount (i :: c) x = (if i.id = x then 1 else 0) + idCount c x := by
  simp only [idCount, List.filter_cons, beq_iff_eq]
  split <;> simp [Nat.add_comm]

/-- Unfolding lemma: total quantity for a given id over a cons. -/
theorem idQuantity_cons (i : CartItem) (c : List CartItem) (x : String) :
    idQuantity (i :: c) x = (if i.id = x then i.quantity else 0) + idQuantity c x := by
  simp only [idQuantity, List.filter_cons, beq_iff_eq]
  split <;> simp

/-- A cart contains no line item with id `x` exactly when its count for
`x` is zero. -/
theorem idCount_eq_zero_iff (c : List CartItem) (x : String) :
    idCount c x = 0 ↔ ∀ i ∈ c, i.id ≠ x := by
  simp only [idCount, List.length_eq_zero, List.filter_eq_nil_iff, beq_iff_eq]

/-- A cart with no line item for `x` carries zero total quantity for
`x`. -/
theorem idQuantity_eq_zero (c : List CartItem) (x : String)
    (h : ∀ i ∈ c, i.id ≠ x) : idQuantity c x = 0 := by
  induction c with
  | nil => rfl
  | cons i c ih =>
      rw [idQuantity_cons]
      have hi : i.id ≠ x := h i (List.mem_cons_self i c)
      rw [if_neg hi, ih fun j hj => h j (List.mem_cons_of_mem i hj)]
      rfl

/-- Bumping every matching item leaves the per-id line-item count
unchanged. -/
theorem idCount_map_bump (c : List CartItem) (x : String) :
    idCount (c.map (bumpIfMatch x)) x = idCount c x := by
  induction c with
  | nil => rfl
  | cons i c ih =>
      simp only [List.map_cons, idCount_cons, bumpIfMatch_id, ih]

/-- Bumping every matching item raises the per-id quantity by the per-id
line-item count. -/
theorem idQuantity_map_bump (c : List CartItem) (x : String) :
    idQuantity (c.map (bumpIfMatch x)) x = idQuantity c x + idCount c x := by
  induction c with
  | nil => rfl
  | cons i c ih =>
      simp only [List.map_cons, idQuantity_cons, idCount_cons, bumpIfMatch_id, ih]
      by_cases hi : i.id = x
      · have hq : (bumpIfMatch x i).quantity = i.quantity + 1 := by
          unfold bumpIfMatch
          rw [if_pos (beq_iff_eq.mpr hi)]
        rw [if_pos hi, if_pos hi, if_pos hi, hq]
        push_cast
        ring
      · rw [if_neg hi, if_neg hi, if_neg hi]
        push_cast
        ring

/-- A nonempty per-id count is the same as the membership test used by
`addToCart`. -/
theorem any_id_iff_idCount_pos (c : List CartItem) (x : String) :
    c.any (fun i => i.id == x) = true ↔ 0 < idCount c x := by
  rw [Nat.pos_iff_ne_zero, Ne, idCount_eq_zero_iff]
  simp [List.any_eq_true]

/-- One `addToCart` call on a cart respecting the at-most-one-line-item
invariant: afterwards there is exactly one line item for the product id
and its total quantity has grown by 1. -/
theorem addToCart_step (c : List CartItem) (p : Product) (h : idCount c p.id ≤ 1) :
    idCount (addToCart c p) p.id = 1 ∧
      idQuantity (addToCart c p) p.id = idQuantity c p.id + 1 := by
  unfold addToCart
  by_cases hany : c.any (fun i => i.id == p.id) = true
  · have hpos : 0 < idCount c p.id := (any_id_iff_idCount_pos c p.id).mp hany
    have hone : idCount c p.id = 1 := le_antisymm h hpos
    rw [if_pos hany, idCount_map_bump, idQuantity_map_bump, hone]
    exact ⟨rfl, by push_cast; ring⟩
  · have hzero : idCount c p.id = 0 := by
      rcases Nat.eq_zero_or_pos (idCount c p.id) with h0 | hpos
      · exact h0
      · exact absurd ((any_id_iff_idCount_pos c p.id).mpr hpos) hany
    have habsent : ∀ i ∈ c, i.id ≠ p.id := (idCount_eq_zero_iff c p.id).mp hzero
    rw [if_neg hany]
    constructor
    · simp only [idCount, List.filter_append, List.length_append]
      have h1 : (List.filter (fun i => i.id == p.id) c).length = 0 := hzero
      have h2 : List.filter (fun i => i.id == p.id) [newCartItem p] = [newCartItem p] := by
        simp [newCartItem]
      rw [h1, h2]
      rfl
    · simp only [idQuantity, List.filter_append, List.map_append, List.sum_append]
      have h1 : idQuantity c p.id = 0 := idQuantity_eq_zero c p.id habsent
      simp only [idQuantity] at h1
      rw [h1]
      simp [newCartItem]

/-- Iterating `addToCart`: `n` unit additions add `n` to the per-id
quantity, and any positive number of additions leaves exactly one line
item for the id. -/
theorem addNTimes_accumulates (p : Product) (n : Nat) :
    ∀ c : List CartItem, idCount c p.id ≤ 1 →
      idQuantity (addNTimes p n c) p.id = idQuantity c p.id + (n : Int) ∧
        idCount (addNTimes p n c) p.id = (if n = 0 then idCount c p.id else 1) := by
  induction n with
  | zero => intro c _; simp [addNTimes]
  | succ m ih =>
      intro c hc
      have hstep := addToCart_step c p hc
      have hrec := ih (addToCart c p) (le_of_eq hstep.1)
      unfold addNTimes
      rcases hrec with ⟨hq, hk⟩
      constructor
      · rw [hq, hstep.2]
        push_cast
        ring
      · rw [hk]
        split <;> simp [hstep.1]

/-- A left fold accumulating values of `f` is the sum of the mapped
list, for rational-valued `f`. -/
theorem foldl_add_eq_sum_map (f : CartItem → ℚ) (l : List CartItem) (a : ℚ) :
    l.foldl (fun acc i => acc + f i) a = a + (l.map f).sum := by
  induction l generalizing a with
  | nil => simp
  | cons i l ih =>
      simp only [List.foldl_cons, List.map_cons, List.sum_cons, ih]
      ring

/-- A left fold accumulating integer values of `f` is the sum of the
mapped list. -/
theorem foldl_add_eq_sum_map_int (f : CartItem → Int) (l : List CartItem) (a : Int) :
    l.foldl (fun acc i => acc + f i) a = a + (l.map f).sum := by
  induction l generalizing a with
  | nil => simp
  | cons i l ih =>
      simp only [List.foldl_cons, List.map_cons, List.sum_cons, ih]
      ring

/-- Membership in a first-occurrence deduplication: an element appears
exactly when it was in the list and not already seen. -/
theorem mem_dedupFirst (a : String) :
    ∀ (l seen : List String), a ∈ dedupFirst seen l ↔ a ∈ l ∧ a ∉ seen := by
  intro l
  induction l with
  | nil => intro seen; simp [dedupFirst]
  | cons c cs ih =>
      intro seen
      simp only [dedupFirst]
      split
      · rename_i hc
        rw [ih seen]
        constructor
        · rintro ⟨h1, h2⟩
          exact ⟨List.mem_cons_of_mem c h1, h2⟩
        · rintro ⟨h1, h2⟩
          rcases List.mem_cons.mp h1 with h | h
          · exact absurd (h ▸ hc) h2
          · exact ⟨h, h2⟩
      · rename_i hc
        simp only [List.mem_cons, ih (c :: seen)]
        constructor
        · rintro (rfl | ⟨h1, h2⟩)
          · exact ⟨Or.inl rfl, hc⟩
          · exact ⟨Or.inr h1, fun hs => h2 (Or.inr hs)⟩
        · rintro ⟨h1 | h1, h2⟩
          · exact Or.inl h1
          · by_cases hac : a = c
            · exact Or.inl hac
            · exact Or.inr ⟨h1, fun hs => hs.elim hac h2⟩

/-- A first-occurrence deduplication never repeats an element. -/
theorem nodup_dedupFirst : ∀ (l seen : List String), (dedupFirst seen l).Nodup := by
  intro l
  induction l with
  | nil => intro seen; simp [dedupFirst]
  | cons c cs ih =>
      intro seen
      simp only [dedupFirst]
      split
      · exact ih seen
      · rw [List.nodup_cons]
        refine ⟨fun hmem => ?_, ih (c :: seen)⟩
        exact ((mem_dedupFirst c cs (c :: seen)).mp hmem).2 (List.mem_cons_self c seen)

/-- Membership in the derived category facets: exactly the non-empty
category values occurring in the fetched rows. -/
theorem mem_uniqueCategories (rows : List Product) (c : String) :
    c ∈ uniqueCategories rows ↔
      c ≠ "" ∧ some c ∈ rows.map (fun p => p.category) := by
  unfold uniqueCategories
  rw [mem_dedupFirst]
  simp only [List.mem_filterMap, List.mem_map, List.not_mem_nil, not_false_iff, and_true]
  constructor
  · rintro ⟨o, ⟨p, hp, rfl⟩, ho⟩
    rcases hco : p.category with _ | s
    · rw [hco] at ho
      simp at ho
    · rw [hco] at ho
      by_cases hs : s = ""
      · simp [hs] at ho
      · simp only [hs, if_false, Option.some.injEq] at ho
        subst ho
        exact ⟨hs, ⟨p, hp, hco⟩⟩
  · rintro ⟨hne, p, hp, hc⟩
    exact ⟨p.category, ⟨p, hp, rfl⟩, by rw [hc]; simp [hne]⟩

/-- Any sequence of detail-page quantity interactions keeps the selected
quantity between 1 and the stock, provided it starts in that range. -/
theorem runQtyOps_bounds (p : Product) (ops : List QtyOp) :
    ∀ q : Nat, 1 ≤ q → q ≤ p.stock →
      1 ≤ runQtyOps (some p) q ops ∧ runQtyOps (some p) q ops ≤ p.stock := by
  induction ops with
  | nil => intro q h1 h2; exact ⟨h1, h2⟩
  | cons op ops ih =>
      intro q h1 h2
      have hstep : 1 ≤ applyQtyOp (some p) q op ∧ applyQtyOp (some p) q op ≤ p.stock := by
        cases op <;>
          simp only [applyQtyOp, incrementQuantity, decrementQuantity] <;>
          split <;> omega
      simp only [runQtyOps]
      exact ih _ hstep.1 hstep.2

/-- C1: `addToCart` increments the quantity of the existing line item
for the product id by 1 when one exists, and otherwise appends a new
line item of quantity 1 at the end of the cart; iterating it `n ≥ 1`
times with the same product, starting from a cart holding no line item
for that id, leaves exactly one line item for the id, of quantity `n`.
The cart store is modelled from the spec (its source is not provided). -/
theorem addToCart_accumulates_single_line (cart : List CartItem) (p : Product) (n : Nat)
    (habsent : ∀ item ∈ cart, item.id ≠ p.id) (hn : 1 ≤ n) :
    addToCart cart p = cart ++ [newCartItem p] ∧
    (∀ c : List CartItem, (∃ i ∈ c, i.id = p.id) →
      addToCart c p = c.map (bumpIfMatch p.id)) ∧
    idCount (addNTimes p n cart) p.id = 1 ∧
    idQuantity (addNTimes p n cart) p.id = (n : Int) := by
  have hzero : idCount cart p.id = 0 := (idCount_eq_zero_iff cart p.id).mpr habsent
  have hacc := addNTimes_accumulates p n cart (by omega)
  refine ⟨?_, ?_, ?_, ?_⟩
  · have hany : ¬ cart.any (fun i => i.id == p.id) = true := by
      rw [any_id_iff_idCount_pos]
      omega
    simp only [addToCart, if_neg hany]
  · intro c hex
    have hany : c.any (fun i => i.id == p.id) = true := by
      rcases hex with ⟨i, hi, hid⟩
      simp only [List.any_eq_true]
      exact ⟨i, hi, beq_iff_eq.mpr hid⟩
    simp only [addToCart, if_pos hany]
  · rw [hacc.2, if_neg (by omega : ¬ n = 0)]
  · rw [hacc.1, idQuantity_eq_zero cart p.id habsent, zero_add]

/-- Closed instance of the C1 theorem: three unit additions of the
sample product to the empty cart give one line item of quantity 3. -/
theorem addToCart_accumulates_single_line_witness :
    idCount (addNTimes sampleShoes 3 []) sampleShoes.id = 1 ∧
    idQuantity (addNTimes sampleShoes 3 []) sampleShoes.id = 3 := by
  have h := addToCart_accumulates_single_line [] sampleShoes 3 (by simp) (by norm_num)
  exact ⟨h.2.2.1, h.2.2.2⟩

/-- C2: `updateQuantity` with a non-positive quantity behaves exactly as
`removeFromCart` (so 0 and -1 both remove the line item), with a
positive quantity it sets the matching line item's quantity to exactly
that value with no stock bound, and with an absent id it leaves the cart
unchanged. The cart store is modelled from the spec (its source is not
provided). -/
theorem updateQuantity_clamp (cart : List CartItem) (productId : String) (q : Int) :
    (q ≤ 0 → updateQuantity cart productId q = removeFromCart cart productId) ∧
    (0 < q → updateQuantity cart productId q =
      cart.map (fun item =>
        if item.id == productId then { item with quantity := q } else item)) ∧
    ((∀ i ∈ cart, i.id ≠ productId) → updateQuantity cart productId q = cart) ∧
    updateQuantity cart productId 0 = removeFromCart cart productId ∧
    updateQuantity cart productId (-1) = removeFromCart cart productId := by
  refine ⟨fun hq => ?_, fun hq => ?_, fun habs => ?_, ?_, ?_⟩
  · simp only [updateQuantity, if_pos hq]
  · simp only [updateQuantity, if_neg (by omega : ¬ q ≤ 0)]
  · by_cases hq : q ≤ 0
    · simp only [updateQuantity, if_pos hq, removeFromCart]
      rw [List.filter_eq_self]
      intro i hi
      simp [bne_iff_ne, habs i hi]
    · simp only [updateQuantity, if_neg hq]
      have hid : ∀ i ∈ cart,
          (if i.id == productId then { i with quantity := q } else i) = i := by
        intro i hi
        rw [if_neg]
        simp [habs i hi]
      calc cart.map (fun i => if i.id == productId then { i with quantity := q } else i)
          = cart.map id := List.map_congr_left hid
        _ = cart := List.map_id cart
  · simp only [updateQuantity, if_pos (le_refl (0 : Int))]
  · simp only [updateQuantity, if_pos (by norm_num : (-1 : Int) ≤ 0)]

/-- Closed instance of the C2 theorem: quantity -1 removes the line
item, and a positive quantity for an absent id is a no-op. -/
theorem updateQuantity_clamp_witness :
    updateQuantity [sampleItemA] "a" (-1) = removeFromCart [sampleItemA] "a" ∧
    updateQuantity [sampleItemA] "c" 7 = [sampleItemA] := by
  refine ⟨(updateQuantity_clamp [sampleItemA] "a" (-1)).1 (by norm_num), ?_⟩
  refine (updateQuantity_clamp [sampleItemA] "c" 7).2.2.1 ?_
  intro i hi
  rw [List.mem_singleton] at hi
  subst hi
  simp [sampleItemA, mkProduct]

/-- C3: `getCartTotal` is exactly the sum over all line items of
`price * quantity`, for every cart state (the embedding is a pure
function of the state passed in, so the value can never be stale), and
on the spec's example cart it returns 449.97. The cart store is
modelled from the spec (its source is not provided). -/
theorem getCartTotal_sums (cart : List CartItem) :
    getCartTotal cart =
      (cart.map (fun item => item.price * (item.quantity : ℚ))).sum ∧
    getCartTotal [sampleItemA, sampleItemB] = 44997 / 100 := by
  constructor
  · unfold getCartTotal
    rw [foldl_add_eq_sum_map (fun i => i.price * (i.quantity : ℚ)), zero_add]
  · simp [getCartTotal, sampleItemA, sampleItemB, mkProduct]
    norm_num

/-- C4: the catalog filter is the order-preserving subsequence of the
input list selected by the conjunction of the two predicates of the
source (case-insensitive substring of name or description when the
search text is non-empty; exact case-sensitive category equality when
the selection is not the sentinel), it never mutates its input (it is a
pure function of it), and it behaves as the spec's examples demand on
the two-product sample catalog. -/
theorem filterProducts_characterizes (products : List Product) (q c : String) :
    filterProducts products q c =
      products.filter (fun p =>
        (q == "" || matchesSearch q p) && (c == "all" || matchesCategory c p)) ∧
    List.Sublist (filterProducts products q c) products ∧
    (filterProducts sampleCatalog "mat" "all").map (fun p => p.name) = ["Yoga Mat"] ∧
    (filterProducts sampleCatalog "" "Footwear").map (fun p => p.name)
      = ["Running Shoes"] ∧
    (filterProducts sampleCatalog "" "all").map (fun p => p.name)
      = ["Running Shoes", "Yoga Mat"] := by
  have hsearch : ∀ l : List Product,
      (if q ≠ "" then l.filter (matchesSearch q) else l)
        = l.filter (fun p => q == "" || matchesSearch q p) := by
    intro l
    by_cases hq : q = ""
    · rw [if_neg (fun h => h hq)]
      symm
      rw [List.filter_eq_self]
      intro a _
      simp [hq]
    · rw [if_pos hq]
      apply List.filter_congr
      intro a _
      rw [beq_eq_false_iff_ne.mpr hq, Bool.false_or]
  have hcat : ∀ l : List Product,
      (if c ≠ "all" then l.filter (matchesCategory c) else l)
        = l.filter (fun p => c == "all" || matchesCategory c p) := by
    intro l
    by_cases hc : c = "all"
    · rw [if_neg (fun h => h hc)]
      symm
      rw [List.filter_eq_self]
      intro a _
      simp [hc]
    · rw [if_pos hc]
      apply List.filter_congr
      intro a _
      rw [beq_eq_false_iff_ne.mpr hc, Bool.false_or]
  have heq : filterProducts products q c =
      products.filter (fun p =>
        (q == "" || matchesSearch q p) && (c == "all" || matchesCategory c p)) := by
    unfold filterProducts
    dsimp only
    rw [hcat, hsearch, List.filter_filter]
    apply List.filter_congr
    intro a _
    rw [Bool.and_comm]
  refine ⟨heq, ?_, by rfl, by rfl, by rfl⟩
  rw [heq]
  exact List.filter_sublist products

/-- C5: a failed product-list fetch leaves both the product list and the
derived category facets of the prior view-model state untouched and
clears the loading flag; a successful fetch also clears the loading
flag. -/
theorem fetchProducts_failure_preserves (s : IndexState) :
    (fetchProducts s .err).products = s.products ∧
    (fetchProducts s .err).categories = s.categories ∧
    (fetchProducts s .err).loading = false ∧
    ∀ data, (fetchProducts s (.ok data)).loading = false := by
  exact ⟨rfl, rfl, rfl, fun _ => rfl⟩

/-- C6: a successful fetch replaces the whole product list with the
fetched rows and derives as category facets exactly the distinct
non-empty category values occurring in them: no facet repeats, absent
or empty categories contribute nothing. -/
theorem fetchProducts_success_facets (s : IndexState) (rows : List Product) :
    (fetchProducts s (.ok (some rows))).products = rows ∧
    (fetchProducts s (.ok (some rows))).categories.Nodup ∧
    ∀ c : String, c ∈ (fetchProducts s (.ok (some rows))).categories ↔
      c ≠ "" ∧ some c ∈ rows.map (fun p => p.category) := by
  refine ⟨rfl, ?_, fun c => ?_⟩
  · exact nodup_dedupFirst _ []
  · exact mem_uniqueCategories rows c

/-- Closed instance of the C6 theorem: fetching the sample catalog
replaces the product list and yields the Footwear facet. -/
theorem fetchProducts_success_facets_witness :
    (fetchProducts ⟨[], [], true⟩ (.ok (some sampleCatalog))).products
      = sampleCatalog ∧
    "Footwear" ∈ (fetchProducts ⟨[], [], true⟩ (.ok (some sampleCatalog))).categories := by
  have h := fetchProducts_success_facets ⟨[], [], true⟩ sampleCatalog
  refine ⟨h.1, (h.2.2 "Footwear").mpr ⟨by simp, ?_⟩⟩
  simp [sampleCatalog, sampleShoes, sampleYoga, mkProduct]

/-- C7: on the detail view, a transport/query failure raises a toast,
keeps the previous product state and does not navigate, while a
well-formed lookup with no row raises a toast and redirects to the root
route; the two outcomes are observably distinct, and a found row raises
no toast and stays on the page. -/
theorem fetchProduct_failure_vs_notfound (prev : Option Product) :
    (fetchProductOutcome prev .err).toastError = some "Failed to load product" ∧
    (fetchProductOutcome prev .err).navigateTo = none ∧
    (fetchProductOutcome prev .err).product = prev ∧
    (fetchProductOutcome prev (.ok none)).toastError = some "Product not found" ∧
    (fetchProductOutcome prev (.ok none)).navigateTo = some "/" ∧
    (∀ row, (fetchProductOutcome prev (.ok (some row))).toastError = none ∧
      (fetchProductOutcome prev (.ok (some row))).navigateTo = none) ∧
    fetchProductOutcome prev .err ≠ fetchProductOutcome prev (.ok none) := by
  refine ⟨rfl, rfl, rfl, rfl, rfl, fun _ => ⟨rfl, rfl⟩, fun h => ?_⟩
  have h2 := congrArg DetailResult.toastError h
  simp [fetchProductOutcome] at h2

/-- C8: `removeFromCart` keeps exactly the line items whose id differs
from the removed one, is an order-preserving no-op when the id is
absent, and is idempotent: a second removal of the same id changes
nothing. The cart store is modelled from the spec (its source is not
provided). -/
theorem removeFromCart_idempotent (cart : List CartItem) (x : String) :
    (∀ i : CartItem, i ∈ removeFromCart cart x ↔ i ∈ cart ∧ i.id ≠ x) ∧
    List.Sublist (removeFromCart cart x) cart ∧
    ((∀ i ∈ cart, i.id ≠ x) → removeFromCart cart x = cart) ∧
    removeFromCart (removeFromCart cart x) x = removeFromCart cart x := by
  refine ⟨fun i => ?_, ?_, fun h => ?_, ?_⟩
  · simp [removeFromCart, List.mem_filter, bne_iff_ne]
  · exact List.filter_sublist cart
  · rw [removeFromCart, List.filter_eq_self]
    intro i hi
    simp [bne_iff_ne, h i hi]
  · show (cart.filter (fun i => i.id != x)).filter (fun i => i.id != x)
        = cart.filter (fun i => i.id != x)
    rw [List.filter_filter]
    simp [Bool.and_self]

/-- Closed instance of the C8 theorem: removing an absent id is a no-op
and the double removal equals the single one. -/
theorem removeFromCart_idempotent_witness :
    removeFromCart [sampleItemA] "z" = [sampleItemA] ∧
    removeFromCart (removeFromCart [sampleItemA, sampleItemB] "a") "a"
      = removeFromCart [sampleItemA, sampleItemB] "a" := by
  refine ⟨(removeFromCart_idempotent [sampleItemA] "z").2.2.1 ?_,
    (removeFromCart_idempotent [sampleItemA, sampleItemB] "a").2.2.2⟩
  intro i hi
  rw [List.mem_singleton] at hi
  subst hi
  simp [sampleItemA, mkProduct]

/-- C9: the detail-page quantity selector starts at 1 and every sequence
of increment/decrement interactions keeps it between 1 and the stock
(for a product with stock at least 1): increment is a no-op at or above
the stock and decrement is a no-op at or below 1. The clamp lives only
in this control: the cart store itself (modelled from the spec, source
not provided) accumulates any number of unit additions with no stock
bound. -/
theorem detail_quantity_clamped (p : Product) (ops : List QtyOp) (hstock : 1 ≤ p.stock) :
    initialQuantity = 1 ∧
    1 ≤ runQtyOps (some p) initialQuantity ops ∧
    runQtyOps (some p) initialQuantity ops ≤ p.stock ∧
    (∀ q, p.stock ≤ q → incrementQuantity (some p) q = q) ∧
    (∀ q, q ≤ 1 → decrementQuantity q = q) ∧
    (∀ cart : List CartItem, idCount cart p.id ≤ 1 → ∀ n : Nat,
      idQuantity (addNTimes p n cart) p.id = idQuantity cart p.id + (n : Int)) := by
  have hrun := runQtyOps_bounds p ops 1 le_rfl hstock
  refine ⟨rfl, hrun.1, hrun.2, fun q hq => ?_, fun q hq => ?_, fun cart hc n => ?_⟩
  · simp only [incrementQuantity]
    rw [if_neg (by omega)]
  · simp only [decrementQuantity]
    rw [if_neg (by omega)]
  · exact (addNTimes_accumulates p n cart hc).1

/-- Closed instance of the C9 theorem: on the sample product the clamp
holds after a concrete interaction sequence. -/
theorem detail_quantity_clamped_witness :
    1 ≤ runQtyOps (some sampleShoes) initialQuantity [QtyOp.inc, QtyOp.inc, QtyOp.dec] ∧
    runQtyOps (some sampleShoes) initialQuantity [QtyOp.inc, QtyOp.inc, QtyOp.dec]
      ≤ sampleShoes.stock := by
  have h := detail_quantity_clamped sampleShoes [QtyOp.inc, QtyOp.inc, QtyOp.dec]
    (by norm_num [sampleShoes, mkProduct])
  exact ⟨h.2.1, h.2.2.1⟩

/-- C10: the detail-page Add to Cart action performs exactly `quantity`
unit `addToCart` calls, so the cart quantity for the product grows by
exactly that amount (on any cart respecting the at-most-one-line-item
invariant), and it does nothing when no product is loaded. The loop is
source; the cart store it calls is modelled from the spec. -/
theorem handleAddToCart_unit_adds (p : Product) (q : Nat) (cart : List CartItem)
    (h : idCount cart p.id ≤ 1) :
    idQuantity (handleAddToCart (some p) q cart) p.id
      = idQuantity cart p.id + (q : Int) ∧
    ∀ (c : List CartItem) (qty : Nat), handleAddToCart none qty c = c := by
  refine ⟨?_, fun _ _ => rfl⟩
  exact (addNTimes_accumulates p q cart h).1

/-- Closed instance of the C10 theorem: adding two units of the sample
product to a one-item cart raises its per-id quantity by 2. -/
theorem handleAddToCart_unit_adds_witness :
    idQuantity (handleAddToCart (some sampleYoga) 2 [sampleItemA]) sampleYoga.id
      = idQuantity [sampleItemA] sampleYoga.id + 2 := by
  refine (handleAddToCart_unit_adds sampleYoga 2 [sampleItemA] ?_).1
  simp [idCount, sampleItemA, sampleYoga, mkProduct, List.filter]

end VCC
